import Mathlib

/-!
Shallow embedding of `.github/scripts/release.py` from t4k/preserve-email.

The script takes one command-line argument `new_version`, rewrites the
top-level `version` field of `manifest.json`, then prepends a record
containing `new_version` and a generated download URL to the sequence
`addons[<addon_id>]['updates']` of `updates.json`, where `<addon_id>` is
read from `browser_specific_settings.gecko.id` of the just-updated
manifest.

JSON values loaded by Python's `json.load` are modelled by the inductive
type `Json`; objects keep their fields in insertion order, exactly as
Python dictionaries do.  The two files are modelled by their parsed
contents (`Option Json`: `none` means the on-disk bytes are not valid
JSON).  The run of `main` is modelled by `runMain`, which returns the
termination cause, the final contents of both files, and a trace of the
observable I/O effects in program order.
-/

/-- JSON values as produced by Python's `json.load`.  Object fields are
kept in insertion order (Python dictionaries preserve it).  Numbers are
modelled by `Int`; no claim of this development touches numeric values.
`json.load` never creates aliasing between sub-values, so a tree is an
exact model of a loaded document. -/
inductive Json where
  | null
  | bool (b : Bool)
  | num (n : Int)
  | str (s : String)
  | arr (elems : List Json)
  | obj (fields : List (String × Json))

/-- Python dictionary read `d[k]` on an insertion-ordered field list:
the value of the first (and only) binding of `k`. -/
def lookupField : List (String × Json) → String → Option Json
  | [], _ => none
  | (k, v) :: rest, key => if k = key then some v else lookupField rest key

/-- Python dictionary write `d[k] = v`: an existing binding is replaced
in place (its position is kept); a new key is appended at the end. -/
def setField : List (String × Json) → String → Json → List (String × Json)
  | [], key, v => [(key, v)]
  | (k, w) :: rest, key, v =>
      if k = key then (k, v) :: rest else (k, w) :: setField rest key v

/-- Subscript read `j[key]` with a string key.  `none` covers both a
`KeyError` (key absent from a dictionary) and a `TypeError` (the value is
not a dictionary); either exception is uncaught and aborts the script. -/
def Json.getKey : Json → String → Option Json
  | Json.obj fields, key => lookupField fields key
  | _, _ => none

/-- Subscript write `j[key] = v` with a string key.  `none` is the
`TypeError` raised when `j` is not a dictionary. -/
def Json.setKey : Json → String → Json → Option Json
  | Json.obj fields, key, v => some (Json.obj (setField fields key v))
  | _, _, _ => none

/-- Models `manifest['browser_specific_settings']['gecko']['id']`
(release.py line 29).  `none` is the uncaught `KeyError`/`TypeError`
raised when some segment of the path does not resolve. -/
def geckoId (m : Json) : Option Json :=
  (m.getKey "browser_specific_settings").bind fun b =>
    (b.getKey "gecko").bind fun g => g.getKey "id"

/-- The f-string of release.py line 30. -/
def updateLink (newVersion : String) : String :=
  "https://github.com/t4k/preserve-email/releases/download/v" ++ newVersion ++
    "/preserve_email-" ++ newVersion ++ "-tb.xpi"

/-- The dictionary literal inserted at index 0 (release.py lines 35-38). -/
def updateRecord (newVersion : String) : Json :=
  Json.obj [("version", Json.str newVersion),
            ("update_link", Json.str (updateLink newVersion))]

/-- Models `updates['addons'][addon_id]['updates'].insert(0, rec)`
(release.py line 35), followed by serializing the mutated top-level structure.  The
in-place list mutation is modelled by rebuilding the tree with the list
replaced; every intermediate container was obtained by a successful
subscript read, so each rebuild step succeeds.  `none` is any of the
uncaught exceptions on this line: a missing key, a non-dictionary
intermediate value, or `updates` not being a list (no `insert` method). -/
def feedPrepend (u : Json) (addonId : String) (rec : Json) : Option Json :=
  match u.getKey "addons" with
  | none => none
  | some a =>
    match a.getKey addonId with
    | none => none
    | some entry =>
      match entry.getKey "updates" with
      | some (Json.arr l) =>
          (entry.setKey "updates" (Json.arr (rec :: l))).bind fun entry' =>
            (a.setKey addonId entry').bind fun a' => u.setKey "addons" a'
      | _ => none

/-- Reads `addons[<addonId>]['updates']` from a feed document. -/
def feedUpdates (u : Json) (addonId : String) : Option Json :=
  (u.getKey "addons").bind fun a =>
    (a.getKey addonId).bind fun entry => entry.getKey "updates"

/-- The parsed on-disk state of the two files the script touches.
`none` means the file's bytes are not valid JSON, so `json.load` raises
`json.JSONDecodeError`.  A successful write always stores a serialized
document, hence a `some`. -/
structure FS where
  manifest : Option Json
  updates : Option Json

/-- Observable I/O effects of a run, in program order. -/
inductive Eff where
  /-- Models `print("Usage: ...")` on standard output (line 8). -/
  | printUsage
  /-- Models the `print(f"Reading <manifest_path>...")` of line 17. -/
  | printReadingManifest
  /-- Models `open(manifest_path, 'r+')` followed by `json.load` (lines 18-19). -/
  | readManifest
  /-- Models the seek, dump, truncate, newline-write sequence on
  manifest.json (lines 21-24). -/
  | writeManifest
  /-- Models the `print(f"Updated manifest.json to version <v>")` of line 25. -/
  | printManifestUpdated (v : String)
  /-- Models the `print(f"Reading <updates_path>...")` of line 32. -/
  | printReadingUpdates
  /-- Models `open(updates_path, 'r+')` followed by `json.load` (lines 33-34). -/
  | readUpdates
  /-- Models the seek, dump, truncate, newline-write sequence on
  updates.json (lines 39-42). -/
  | writeUpdates
  /-- Models the `print(f"Added version <v> to updates.json")` of line 43. -/
  | printUpdatesAdded (v : String)
deriving DecidableEq

/-- How a run of `main` terminates. -/
inductive RunResult where
  /-- Normal return of `main`; the interpreter exits with status 0. -/
  | success
  /-- Models `sys.exit(1)` after the usage message (lines 8-9). -/
  | usageError
  /-- uncaught `json.JSONDecodeError` from `json.load` on manifest.json. -/
  | errManifestParse
  /-- uncaught `TypeError` from `manifest['version'] = new_version` when
  the loaded manifest is not a dictionary (line 20). -/
  | errManifestSet
  /-- uncaught `KeyError`/`TypeError` resolving
  `browser_specific_settings.gecko.id` (line 29). -/
  | errManifestKey
  /-- uncaught `json.JSONDecodeError` from `json.load` on updates.json. -/
  | errUpdatesParse
  /-- uncaught `KeyError`/`TypeError`/`AttributeError` from
  `updates['addons'][addon_id]['updates'].insert(0, ...)` (line 35). -/
  | errUpdatesKey
deriving DecidableEq

/-- Exit status of the interpreter for each termination cause: 0 on
return, 1 from `sys.exit(1)`, and 1 (CPython's default) for an uncaught
exception. -/
def exitCode : RunResult → Nat
  | RunResult.success => 0
  | _ => 1

/-- Result of a run: termination cause, final file contents, effect
trace. -/
structure Outcome where
  result : RunResult
  fs : FS
  trace : List Eff

/-- The `main` function of release.py.  `args` is `sys.argv[1:]`, so
`len(sys.argv) < 2` is `args = []`.  Each file is fully read, mutated in
memory, and rewritten inside one `with` block; an exception raised before
`f.seek(0)` leaves that file's bytes unchanged. -/
def runMain (args : List String) (fs : FS) : Outcome :=
  match args with
  | [] => ⟨RunResult.usageError, fs, [Eff.printUsage]⟩
  | newVersion :: _ =>
    let t0 := [Eff.printReadingManifest, Eff.readManifest]
    match fs.manifest with
    | none => ⟨RunResult.errManifestParse, fs, t0⟩
    | some m =>
      match m.setKey "version" (Json.str newVersion) with
      | none => ⟨RunResult.errManifestSet, fs, t0⟩
      | some m1 =>
        let fs1 : FS := ⟨some m1, fs.updates⟩
        let t1 := t0 ++ [Eff.writeManifest, Eff.printManifestUpdated newVersion]
        match geckoId m1 with
        | none => ⟨RunResult.errManifestKey, fs1, t1⟩
        | some idv =>
          let t2 := t1 ++ [Eff.printReadingUpdates, Eff.readUpdates]
          match fs.updates with
          | none => ⟨RunResult.errUpdatesParse, fs1, t2⟩
          | some u =>
            match idv with
            | Json.str addonId =>
              match feedPrepend u addonId (updateRecord newVersion) with
              | none => ⟨RunResult.errUpdatesKey, fs1, t2⟩
              | some u1 =>
                  ⟨RunResult.success, ⟨some m1, some u1⟩,
                    t2 ++ [Eff.writeUpdates, Eff.printUpdatesAdded newVersion]⟩
            | _ => ⟨RunResult.errUpdatesKey, fs1, t2⟩

/-- The concrete manifest of the spec's worked scenario. -/
def sampleManifest : Json :=
  Json.obj [("version", Json.str "1.0.0"),
            ("browser_specific_settings",
              Json.obj [("gecko", Json.obj [("id", Json.str "addon@example.com")])])]

/-- The concrete updates feed of the spec's worked scenario. -/
def sampleFeed : Json :=
  Json.obj [("addons",
    Json.obj [("addon@example.com",
      Json.obj [("updates",
        Json.arr [Json.obj [("version", Json.str "1.0.0"),
                            ("update_link", Json.str "...")]])])])]

/-- Both sample files on disk. -/
def sampleFS : FS := ⟨some sampleManifest, some sampleFeed⟩

/-- The effect trace of a successful run, in program order. -/
def successTrace (v : String) : List Eff :=
  [Eff.printReadingManifest, Eff.readManifest, Eff.writeManifest,
   Eff.printManifestUpdated v, Eff.printReadingUpdates, Eff.readUpdates,
   Eff.writeUpdates, Eff.printUpdatesAdded v]

/-- The sample manifest with its version replaced by `v`: the write is
in place, so the key order is unchanged. -/
def bumpedManifest (v : String) : Json :=
  Json.obj [("version", Json.str v),
            ("browser_specific_settings",
              Json.obj [("gecko", Json.obj [("id", Json.str "addon@example.com")])])]

/-- The sample feed with the record for `v` prepended. -/
def bumpedFeed (v : String) : Json :=
  Json.obj [("addons",
    Json.obj [("addon@example.com",
      Json.obj [("updates",
        Json.arr [updateRecord v,
                  Json.obj [("version", Json.str "1.0.0"),
                            ("update_link", Json.str "...")]])])])]

/-- A manifest without the `browser_specific_settings.gecko.id` path. -/
def noIdManifest : Json := Json.obj [("name", Json.str "pe")]

/-- A feed whose `addons` mapping is empty. -/
def emptyAddonsFeed : Json := Json.obj [("addons", Json.obj [])]

/-! ### Lemmas about the embedded dictionary operations -/

/-- Looking a key up after a Python dictionary write: the written key
reads back the new value, every other key is untouched. -/
theorem lookupField_setField (fields : List (String × Json)) (key q : String) (v : Json) :
    lookupField (setField fields key v) q =
      if q = key then some v else lookupField fields q := by
  induction fields with
  | nil =>
      simp only [setField, lookupField]
      by_cases h : key = q
      · subst h; simp
      · rw [if_neg h, if_neg fun hq => h hq.symm]
  | cons p rest ih =>
      obtain ⟨k, w⟩ := p
      by_cases hk : k = key
      · subst hk
        by_cases hq : q = k
        · subst hq; simp [setField, lookupField]
        · simp [setField, lookupField, hq, Ne.symm hq]
      · by_cases hq : k = q
        · subst hq
          simp [setField, lookupField, hk]
        · simp [setField, lookupField, hk, hq, ih]

/-- A successful subscript write makes the written key read back the
written value. -/
theorem getKey_setKey_self {m m' : Json} {key : String} {v : Json}
    (h : m.setKey key v = some m') : m'.getKey key = some v := by
  cases m <;> simp [Json.setKey] at h
  subst h
  simp [Json.getKey, lookupField_setField]

/-- A successful subscript write leaves every other key unchanged. -/
theorem getKey_setKey_other {m m' : Json} {key : String} {v : Json}
    (h : m.setKey key v = some m') (q : String) (hq : q ≠ key) :
    m'.getKey q = m.getKey q := by
  cases m <;> simp [Json.setKey] at h
  subst h
  simp [Json.getKey, lookupField_setField, hq]

/-- Writing the same key-value pair twice is the same as writing it once. -/
theorem setField_setField_same (fields : List (String × Json)) (key : String) (v : Json) :
    setField (setField fields key v) key v = setField fields key v := by
  induction fields with
  | nil => simp [setField]
  | cons p rest ih =>
      obtain ⟨k, w⟩ := p
      by_cases hk : k = key <;> simp [setField, hk, ih]

/-- A successful subscript write is idempotent. -/
theorem setKey_setKey_same {m m' : Json} {key : String} {v : Json}
    (h : m.setKey key v = some m') : m'.setKey key v = some m' := by
  cases m <;> simp [Json.setKey] at h
  subst h
  simp [Json.setKey, setField_setField_same]

/-- Overwriting the `version` field does not change the addon-id path. -/
theorem geckoId_setKey_version {m m1 : Json} {v : Json}
    (h : m.setKey "version" v = some m1) : geckoId m1 = geckoId m := by
  unfold geckoId
  rw [getKey_setKey_other h "browser_specific_settings" (by decide)]

/-- Inversion of a successful in-place prepend: the feed held a list at
the addon path before, and afterwards holds the record consed onto that
list. -/
theorem feedPrepend_inv {u u' : Json} {addonId : String} {rec : Json}
    (h : feedPrepend u addonId rec = some u') :
    ∃ l, feedUpdates u addonId = some (Json.arr l) ∧
      feedUpdates u' addonId = some (Json.arr (rec :: l)) := by
  rcases ha : u.getKey "addons" with _ | a <;> simp only [feedPrepend, ha] at h
  · exact Option.noConfusion h
  rcases he : a.getKey addonId with _ | entry <;> simp only [he] at h
  · exact Option.noConfusion h
  rcases hup : entry.getKey "updates" with _ | w <;> simp only [hup] at h
  · exact Option.noConfusion h
  cases w <;> try exact Option.noConfusion h
  case arr l =>
  rcases entry with _ | _ | _ | _ | _ | ef <;> simp [Json.getKey] at hup
  rcases a with _ | _ | _ | _ | _ | af <;> simp [Json.getKey] at he
  rcases u with _ | _ | _ | _ | _ | uf <;> simp [Json.getKey] at ha
  simp only [Json.setKey, Option.bind, Option.some.injEq] at h
  subst h
  refine ⟨l, ?_, ?_⟩
  · simp [feedUpdates, Json.getKey, ha, he, hup]
  · simp [feedUpdates, Json.getKey, lookupField_setField, ha, he, hup]

/-- If the feed holds a list at the addon path, the in-place prepend
succeeds. -/
theorem feedPrepend_total {u : Json} {addonId : String} {l : List Json} (rec : Json)
    (h : feedUpdates u addonId = some (Json.arr l)) :
    ∃ u', feedPrepend u addonId rec = some u' := by
  rcases ha : u.getKey "addons" with _ | a <;> simp only [feedUpdates, ha, Option.bind] at h
  · exact Option.noConfusion h
  rcases he : a.getKey addonId with _ | entry <;> simp only [he] at h
  · exact Option.noConfusion h
  rcases entry with _ | _ | _ | _ | _ | ef <;> simp [Json.getKey] at h
  rcases a with _ | _ | _ | _ | _ | af <;> simp [Json.getKey] at he
  rcases u with _ | _ | _ | _ | _ | uf <;> simp [Json.getKey] at ha
  refine ⟨Json.obj (setField uf "addons" (Json.obj (setField af addonId
    (Json.obj (setField ef "updates" (Json.arr (rec :: l))))))), ?_⟩
  simp [feedPrepend, Json.getKey, Json.setKey, ha, he, h]


/-- Explicit form of a run in which every step goes through. -/
theorem runMain_success_form (v : String) (r : List String) (fs : FS)
    {m m1 u u1 : Json} {s : String}
    (hm : fs.manifest = some m)
    (hset : m.setKey "version" (Json.str v) = some m1)
    (hid : geckoId m1 = some (Json.str s))
    (hu : fs.updates = some u)
    (hp : feedPrepend u s (updateRecord v) = some u1) :
    runMain (v :: r) fs = ⟨RunResult.success, ⟨some m1, some u1⟩, successTrace v⟩ := by
  simp [runMain, hm, hset, hid, hu, hp, successTrace]

/-- A run that ends in success pins down every intermediate step: the
manifest parsed to a dictionary, the version write went through, the
addon id resolved to a string, the feed parsed, and the prepend went
through; the final state holds the two rewritten documents. -/
theorem runMain_success_inv {v : String} {r : List String} {fs : FS} {o : Outcome}
    (h : runMain (v :: r) fs = o) (hs : o.result = RunResult.success) :
    ∃ m m1 s u u1,
      fs.manifest = some m ∧
      m.setKey "version" (Json.str v) = some m1 ∧
      geckoId m1 = some (Json.str s) ∧
      fs.updates = some u ∧
      feedPrepend u s (updateRecord v) = some u1 ∧
      o = ⟨RunResult.success, ⟨some m1, some u1⟩, successTrace v⟩ := by
  subst h
  rcases hm : fs.manifest with _ | m
  · simp [runMain, hm] at hs
  rcases hset : m.setKey "version" (Json.str v) with _ | m1
  · simp [runMain, hm, hset] at hs
  rcases hid : geckoId m1 with _ | idv
  · simp [runMain, hm, hset, hid] at hs
  rcases hu : fs.updates with _ | u
  · simp [runMain, hm, hset, hid, hu] at hs
  cases idv with
  | str s =>
      rcases hp : feedPrepend u s (updateRecord v) with _ | u1
      · simp [runMain, hm, hset, hid, hu, hp] at hs
      · exact ⟨m, m1, s, u, u1, by simp [hm], hset, hid, by simp [hu], hp,
          runMain_success_form v r fs hm hset hid hu hp⟩
  | null => simp [runMain, hm, hset, hid, hu] at hs
  | bool b => simp [runMain, hm, hset, hid, hu] at hs
  | num n => simp [runMain, hm, hset, hid, hu] at hs
  | arr el => simp [runMain, hm, hset, hid, hu] at hs
  | obj fl => simp [runMain, hm, hset, hid, hu] at hs

/-! ### The claims -/

/-- C1: for every well-formed manifest file and every version string
`new_version`, after a successful run of the script with `new_version` as
its single argument, the top-level `version` field of manifest.json
equals exactly `new_version`. -/
theorem C1_version_field_set (v : String) (r : List String) (fs : FS) (o : Outcome)
    (h : runMain (v :: r) fs = o) (hs : o.result = RunResult.success) :
    ∃ m1, o.fs.manifest = some m1 ∧ m1.getKey "version" = some (Json.str v) := by
  obtain ⟨m, m1, s, u, u1, hm, hset, hid, hu, hp, ho⟩ := runMain_success_inv h hs
  subst ho
  exact ⟨m1, rfl, getKey_setKey_self hset⟩

/-- C1 at the spec's concrete scenario. -/
theorem C1_version_field_set_witness :
    ∃ m1, (runMain ["1.1.0"] sampleFS).fs.manifest = some m1 ∧
      m1.getKey "version" = some (Json.str "1.1.0") :=
  C1_version_field_set "1.1.0" [] sampleFS (runMain ["1.1.0"] sampleFS) rfl rfl

/-- C3: for every version string `new_version`, the `update_link` written
into the new record is exactly the template URL with both occurrences of
the version replaced by `new_version`. -/
theorem C3_update_link_template (v : String) :
    updateLink v =
      "https://github.com/t4k/preserve-email/releases/download/v" ++ v ++
        "/preserve_email-" ++ v ++ "-tb.xpi" ∧
    (updateRecord v).getKey "update_link" = some (Json.str (updateLink v)) := by
  refine ⟨rfl, ?_⟩
  simp [updateRecord, Json.getKey, lookupField]

/-- C4: a manifest that parses to a dictionary but lacks some segment of
`browser_specific_settings.gecko.id` aborts the run with a key-lookup
error; manifest.json has already been rewritten with the bumped version
and updates.json is neither read nor written. -/
theorem C4_gecko_missing_partial_write (v : String) (r : List String) (fs : FS)
    (m m1 : Json)
    (hm : fs.manifest = some m)
    (hset : m.setKey "version" (Json.str v) = some m1)
    (hmiss : geckoId m = none) :
    runMain (v :: r) fs =
      ⟨RunResult.errManifestKey, ⟨some m1, fs.updates⟩,
        [Eff.printReadingManifest, Eff.readManifest, Eff.writeManifest,
         Eff.printManifestUpdated v]⟩ ∧
    m1.getKey "version" = some (Json.str v) ∧
    Eff.readUpdates ∉ (runMain (v :: r) fs).trace ∧
    Eff.writeUpdates ∉ (runMain (v :: r) fs).trace := by
  have hid : geckoId m1 = none := by rw [geckoId_setKey_version hset, hmiss]
  have hrun : runMain (v :: r) fs =
      ⟨RunResult.errManifestKey, ⟨some m1, fs.updates⟩,
        [Eff.printReadingManifest, Eff.readManifest, Eff.writeManifest,
         Eff.printManifestUpdated v]⟩ := by
    simp [runMain, hm, hset, hid]
  refine ⟨hrun, getKey_setKey_self hset, ?_, ?_⟩ <;> rw [hrun] <;> simp

/-- C4 at a concrete manifest without the gecko id path. -/
theorem C4_gecko_missing_partial_write_witness :
    runMain ["2.0.0"] ⟨some noIdManifest, some sampleFeed⟩ =
      ⟨RunResult.errManifestKey,
        ⟨some (Json.obj [("name", Json.str "pe"), ("version", Json.str "2.0.0")]),
          some sampleFeed⟩,
        [Eff.printReadingManifest, Eff.readManifest, Eff.writeManifest,
         Eff.printManifestUpdated "2.0.0"]⟩ ∧
    (Json.obj [("name", Json.str "pe"),
      ("version", Json.str "2.0.0")]).getKey "version" = some (Json.str "2.0.0") ∧
    Eff.readUpdates ∉ (runMain ["2.0.0"] ⟨some noIdManifest, some sampleFeed⟩).trace ∧
    Eff.writeUpdates ∉ (runMain ["2.0.0"] ⟨some noIdManifest, some sampleFeed⟩).trace :=
  C4_gecko_missing_partial_write "2.0.0" [] ⟨some noIdManifest, some sampleFeed⟩
    noIdManifest (Json.obj [("name", Json.str "pe"), ("version", Json.str "2.0.0")])
    rfl rfl rfl

/-- C5: a successful run changes only the top-level `version` field of
the manifest; every other field (with its whole nested structure) passes
through unchanged. -/
theorem C5_only_version_changes (v : String) (r : List String) (fs : FS) (o : Outcome)
    (h : runMain (v :: r) fs = o) (hs : o.result = RunResult.success) :
    ∃ m m1, fs.manifest = some m ∧ o.fs.manifest = some m1 ∧
      m1.getKey "version" = some (Json.str v) ∧
      ∀ q : String, q ≠ "version" → m1.getKey q = m.getKey q := by
  obtain ⟨m, m1, s, u, u1, hm, hset, hid, hu, hp, ho⟩ := runMain_success_inv h hs
  subst ho
  exact ⟨m, m1, hm, rfl, getKey_setKey_self hset,
    fun q hq => getKey_setKey_other hset q hq⟩

/-- C5 at the spec's concrete scenario. -/
theorem C5_only_version_changes_witness :
    ∃ m m1, sampleFS.manifest = some m ∧
      (runMain ["1.1.0"] sampleFS).fs.manifest = some m1 ∧
      m1.getKey "version" = some (Json.str "1.1.0") ∧
      ∀ q : String, q ≠ "version" → m1.getKey q = m.getKey q :=
  C5_only_version_changes "1.1.0" [] sampleFS (runMain ["1.1.0"] sampleFS) rfl rfl

/-- C7: invoked with zero command-line arguments the script prints the
usage message to standard output, exits with status 1, and neither file
is read or modified. -/
theorem C7_usage_on_zero_args (fs : FS) :
    runMain [] fs = ⟨RunResult.usageError, fs, [Eff.printUsage]⟩ ∧
    exitCode RunResult.usageError = 1 ∧
    (runMain [] fs).fs = fs ∧
    Eff.readManifest ∉ (runMain [] fs).trace ∧
    Eff.writeManifest ∉ (runMain [] fs).trace ∧
    Eff.readUpdates ∉ (runMain [] fs).trace ∧
    Eff.writeUpdates ∉ (runMain [] fs).trace := by
  refine ⟨rfl, rfl, rfl, ?_, ?_, ?_, ?_⟩ <;> simp [runMain]

/-- C2: after a successful run, the `addons.<addon_id>.updates` sequence
of updates.json is one element longer than before, its element at index 0
is the record built from `new_version` and the generated link, and every
pre-existing element is unchanged and shifted back by one position. -/
theorem C2_feed_prepend (v : String) (r : List String) (fs : FS) (o : Outcome)
    (m1 u : Json) (s : String) (l : List Json)
    (h : runMain (v :: r) fs = o) (hs : o.result = RunResult.success)
    (hm1 : o.fs.manifest = some m1) (hid : geckoId m1 = some (Json.str s))
    (hu : fs.updates = some u) (hl : feedUpdates u s = some (Json.arr l)) :
    ∃ u' l', o.fs.updates = some u' ∧ feedUpdates u' s = some (Json.arr l') ∧
      l' = updateRecord v :: l ∧
      l'.length = l.length + 1 ∧
      l'.head? = some (updateRecord v) ∧
      ∀ i : Nat, l'[i + 1]? = l[i]? := by
  obtain ⟨m, m1', s', u'', u1, hm, hset, hid', hu', hp, ho⟩ := runMain_success_inv h hs
  have hofs : o.fs = ⟨some m1', some u1⟩ := by rw [ho]
  obtain rfl : m1 = m1' := by rw [hofs] at hm1; exact (Option.some.inj hm1).symm
  obtain rfl : s = s' := by
    rw [hid] at hid'
    have h2 := Option.some.inj hid'
    injection h2 with h3
  obtain rfl : u = u'' := by rw [hu] at hu'; exact Option.some.inj hu'
  obtain ⟨l0, hl0, hl0'⟩ := feedPrepend_inv hp
  obtain rfl : l = l0 := by
    rw [hl] at hl0
    have h2 := Option.some.inj hl0
    injection h2 with h3
  refine ⟨u1, updateRecord v :: l, by rw [hofs], hl0', rfl, by simp, rfl, fun i => by simp⟩

/-- C2 at the spec's concrete scenario. -/
theorem C2_feed_prepend_witness :
    ∃ u' l', (runMain ["1.1.0"] sampleFS).fs.updates = some u' ∧
      feedUpdates u' "addon@example.com" = some (Json.arr l') ∧
      l' = updateRecord "1.1.0" ::
        [Json.obj [("version", Json.str "1.0.0"), ("update_link", Json.str "...")]] ∧
      l'.length =
        [Json.obj [("version", Json.str "1.0.0"),
          ("update_link", Json.str "...")]].length + 1 ∧
      l'.head? = some (updateRecord "1.1.0") ∧
      ∀ i : Nat, l'[i + 1]? =
        [Json.obj [("version", Json.str "1.0.0"), ("update_link", Json.str "...")]][i]? :=
  C2_feed_prepend "1.1.0" [] sampleFS (runMain ["1.1.0"] sampleFS)
    (bumpedManifest "1.1.0") sampleFeed "addon@example.com"
    [Json.obj [("version", Json.str "1.0.0"), ("update_link", Json.str "...")]]
    rfl rfl rfl rfl rfl rfl

/-- C6: an updates feed that parses as JSON but whose `addons` mapping
does not contain the addon id aborts the run with a key-lookup error; the
already rewritten manifest keeps its bumped version and updates.json is
not modified. -/
theorem C6_addon_missing_feed_untouched (v : String) (r : List String) (fs : FS)
    (m m1 a u : Json) (s : String)
    (hm : fs.manifest = some m)
    (hset : m.setKey "version" (Json.str v) = some m1)
    (hid : geckoId m1 = some (Json.str s))
    (hu : fs.updates = some u)
    (ha : u.getKey "addons" = some a)
    (hmiss : a.getKey s = none) :
    runMain (v :: r) fs =
      ⟨RunResult.errUpdatesKey, ⟨some m1, some u⟩,
        [Eff.printReadingManifest, Eff.readManifest, Eff.writeManifest,
         Eff.printManifestUpdated v, Eff.printReadingUpdates, Eff.readUpdates]⟩ ∧
    m1.getKey "version" = some (Json.str v) ∧
    (runMain (v :: r) fs).fs.updates = fs.updates ∧
    Eff.writeUpdates ∉ (runMain (v :: r) fs).trace := by
  have hp : feedPrepend u s (updateRecord v) = none := by
    simp [feedPrepend, ha, hmiss]
  have hrun : runMain (v :: r) fs =
      ⟨RunResult.errUpdatesKey, ⟨some m1, some u⟩,
        [Eff.printReadingManifest, Eff.readManifest, Eff.writeManifest,
         Eff.printManifestUpdated v, Eff.printReadingUpdates, Eff.readUpdates]⟩ := by
    simp [runMain, hm, hset, hid, hu, hp]
  refine ⟨hrun, getKey_setKey_self hset, ?_, ?_⟩ <;> rw [hrun] <;> simp [hu]

/-- C6 at a concrete feed whose addons mapping is empty. -/
theorem C6_addon_missing_feed_untouched_witness :
    runMain ["1.1.0"] ⟨some sampleManifest, some emptyAddonsFeed⟩ =
      ⟨RunResult.errUpdatesKey, ⟨some (bumpedManifest "1.1.0"), some emptyAddonsFeed⟩,
        [Eff.printReadingManifest, Eff.readManifest, Eff.writeManifest,
         Eff.printManifestUpdated "1.1.0", Eff.printReadingUpdates, Eff.readUpdates]⟩ ∧
    (bumpedManifest "1.1.0").getKey "version" = some (Json.str "1.1.0") ∧
    (runMain ["1.1.0"] ⟨some sampleManifest, some emptyAddonsFeed⟩).fs.updates =
      (⟨some sampleManifest, some emptyAddonsFeed⟩ : FS).updates ∧
    Eff.writeUpdates ∉
      (runMain ["1.1.0"] ⟨some sampleManifest, some emptyAddonsFeed⟩).trace :=
  C6_addon_missing_feed_untouched "1.1.0" [] ⟨some sampleManifest, some emptyAddonsFeed⟩
    sampleManifest (bumpedManifest "1.1.0") (Json.obj []) emptyAddonsFeed
    "addon@example.com" rfl rfl rfl rfl rfl rfl

/-- C8: a file whose content is not valid JSON makes the run abort with a
parse error before any write to that file, leaving its on-disk contents
unchanged; stated for the manifest (first conjunct) and for the updates
feed reached through a well-formed manifest (second conjunct). -/
theorem C8_parse_error_no_write (v : String) (r : List String) (fsm fsu : FS)
    (m m1 idv : Json)
    (hmm : fsm.manifest = none)
    (hum : fsu.manifest = some m)
    (hset : m.setKey "version" (Json.str v) = some m1)
    (hid : geckoId m1 = some idv)
    (huu : fsu.updates = none) :
    (runMain (v :: r) fsm =
        ⟨RunResult.errManifestParse, fsm,
          [Eff.printReadingManifest, Eff.readManifest]⟩ ∧
      (runMain (v :: r) fsm).fs = fsm ∧
      Eff.writeManifest ∉ (runMain (v :: r) fsm).trace ∧
      Eff.writeUpdates ∉ (runMain (v :: r) fsm).trace) ∧
    (runMain (v :: r) fsu =
        ⟨RunResult.errUpdatesParse, ⟨some m1, none⟩,
          [Eff.printReadingManifest, Eff.readManifest, Eff.writeManifest,
           Eff.printManifestUpdated v, Eff.printReadingUpdates, Eff.readUpdates]⟩ ∧
      (runMain (v :: r) fsu).fs.updates = fsu.updates ∧
      Eff.writeUpdates ∉ (runMain (v :: r) fsu).trace) := by
  have h1 : runMain (v :: r) fsm =
      ⟨RunResult.errManifestParse, fsm,
        [Eff.printReadingManifest, Eff.readManifest]⟩ := by
    simp [runMain, hmm]
  have h2 : runMain (v :: r) fsu =
      ⟨RunResult.errUpdatesParse, ⟨some m1, none⟩,
        [Eff.printReadingManifest, Eff.readManifest, Eff.writeManifest,
         Eff.printManifestUpdated v, Eff.printReadingUpdates, Eff.readUpdates]⟩ := by
    simp [runMain, hum, hset, hid, huu]
  refine ⟨⟨h1, ?_, ?_, ?_⟩, h2, ?_, ?_⟩
  · rw [h1]
  · rw [h1]; simp
  · rw [h1]; simp
  · rw [h2]; simp [huu]
  · rw [h2]; simp

/-- C8 at a pair of concrete states, one with a malformed manifest, one
with a malformed feed. -/
theorem C8_parse_error_no_write_witness :
    (runMain ["1.1.0"] ⟨none, some sampleFeed⟩ =
        ⟨RunResult.errManifestParse, ⟨none, some sampleFeed⟩,
          [Eff.printReadingManifest, Eff.readManifest]⟩ ∧
      (runMain ["1.1.0"] ⟨none, some sampleFeed⟩).fs = ⟨none, some sampleFeed⟩ ∧
      Eff.writeManifest ∉ (runMain ["1.1.0"] ⟨none, some sampleFeed⟩).trace ∧
      Eff.writeUpdates ∉ (runMain ["1.1.0"] ⟨none, some sampleFeed⟩).trace) ∧
    (runMain ["1.1.0"] ⟨some sampleManifest, none⟩ =
        ⟨RunResult.errUpdatesParse, ⟨some (bumpedManifest "1.1.0"), none⟩,
          [Eff.printReadingManifest, Eff.readManifest, Eff.writeManifest,
           Eff.printManifestUpdated "1.1.0", Eff.printReadingUpdates,
           Eff.readUpdates]⟩ ∧
      (runMain ["1.1.0"] ⟨some sampleManifest, none⟩).fs.updates =
        (⟨some sampleManifest, none⟩ : FS).updates ∧
      Eff.writeUpdates ∉ (runMain ["1.1.0"] ⟨some sampleManifest, none⟩).trace) :=
  C8_parse_error_no_write "1.1.0" [] ⟨none, some sampleFeed⟩ ⟨some sampleManifest, none⟩
    sampleManifest (bumpedManifest "1.1.0") (Json.str "addon@example.com")
    rfl rfl rfl rfl rfl

/-- With at least one argument present, the usage branch is never taken,
whatever the state of the two files. -/
theorem runMain_cons_result_ne_usage (a : String) (r : List String) (g : FS) :
    (runMain (a :: r) g).result ≠ RunResult.usageError := by
  rcases hm : g.manifest with _ | m
  · simp [runMain, hm]
  rcases hset : m.setKey "version" (Json.str a) with _ | m1
  · simp [runMain, hm, hset]
  rcases hid : geckoId m1 with _ | idv
  · simp [runMain, hm, hset, hid]
  rcases hu : g.updates with _ | u
  · simp [runMain, hm, hset, hid, hu]
  cases idv with
  | str s =>
      rcases hp : feedPrepend u s (updateRecord a) with _ | u1 <;>
        simp [runMain, hm, hset, hid, hu, hp]
  | null => simp [runMain, hm, hset, hid, hu]
  | bool b => simp [runMain, hm, hset, hid, hu]
  | num n => simp [runMain, hm, hset, hid, hu]
  | arr el => simp [runMain, hm, hset, hid, hu]
  | obj fl => simp [runMain, hm, hset, hid, hu]

/-- C9: the release operation is not idempotent: a second run with the
same version succeeds again and leaves two equal records at the head of
the `updates` sequence, which is now two elements longer than it was
before the first run. -/
theorem C9_second_run_duplicates (v : String) (fs : FS) (o : Outcome)
    (m1 u : Json) (s : String) (l : List Json)
    (h : runMain [v] fs = o) (hs : o.result = RunResult.success)
    (hm1 : o.fs.manifest = some m1) (hid : geckoId m1 = some (Json.str s))
    (hu : fs.updates = some u) (hl : feedUpdates u s = some (Json.arr l)) :
    ∃ u2, (runMain [v] o.fs).result = RunResult.success ∧
      (runMain [v] o.fs).fs.updates = some u2 ∧
      feedUpdates u2 s = some (Json.arr (updateRecord v :: updateRecord v :: l)) ∧
      (updateRecord v :: updateRecord v :: l).length = l.length + 2 ∧
      (updateRecord v :: updateRecord v :: l)[0]? =
        (updateRecord v :: updateRecord v :: l)[1]? := by
  obtain ⟨m, m1', s', u'', u1, hm, hset, hid', hu', hp, ho⟩ := runMain_success_inv h hs
  have hofs : o.fs = ⟨some m1', some u1⟩ := by rw [ho]
  obtain rfl : m1 = m1' := by rw [hofs] at hm1; exact (Option.some.inj hm1).symm
  obtain rfl : s = s' := by
    rw [hid] at hid'
    have h2 := Option.some.inj hid'
    injection h2 with h3
  obtain rfl : u = u'' := by rw [hu] at hu'; exact Option.some.inj hu'
  obtain ⟨l0, hl0, hl0'⟩ := feedPrepend_inv hp
  obtain rfl : l = l0 := by
    rw [hl] at hl0
    have h2 := Option.some.inj hl0
    injection h2 with h3
  have hset2 : m1.setKey "version" (Json.str v) = some m1 := setKey_setKey_same hset
  obtain ⟨u2, hp2⟩ := feedPrepend_total (updateRecord v) hl0'
  obtain ⟨l1, hl1, hl1'⟩ := feedPrepend_inv hp2
  obtain rfl : updateRecord v :: l = l1 := by
    rw [hl0'] at hl1
    have h2 := Option.some.inj hl1
    injection h2 with h3
  have hrun2 :=
    runMain_success_form v [] (⟨some m1, some u1⟩ : FS) rfl hset2 hid rfl hp2
  refine ⟨u2, ?_, ?_, hl1', by simp, by simp⟩
  · rw [hofs, hrun2]
  · rw [hofs, hrun2]

/-- C9 at the spec's concrete scenario. -/
theorem C9_second_run_duplicates_witness :
    ∃ u2, (runMain ["1.1.0"] (runMain ["1.1.0"] sampleFS).fs).result =
        RunResult.success ∧
      (runMain ["1.1.0"] (runMain ["1.1.0"] sampleFS).fs).fs.updates = some u2 ∧
      feedUpdates u2 "addon@example.com" =
        some (Json.arr (updateRecord "1.1.0" :: updateRecord "1.1.0" ::
          [Json.obj [("version", Json.str "1.0.0"), ("update_link", Json.str "...")]])) ∧
      (updateRecord "1.1.0" :: updateRecord "1.1.0" ::
        [Json.obj [("version", Json.str "1.0.0"),
          ("update_link", Json.str "...")]]).length =
        [Json.obj [("version", Json.str "1.0.0"),
          ("update_link", Json.str "...")]].length + 2 ∧
      (updateRecord "1.1.0" :: updateRecord "1.1.0" ::
        [Json.obj [("version", Json.str "1.0.0"), ("update_link", Json.str "...")]])[0]? =
      (updateRecord "1.1.0" :: updateRecord "1.1.0" ::
        [Json.obj [("version", Json.str "1.0.0"),
          ("update_link", Json.str "...")]])[1]? :=
  C9_second_run_duplicates "1.1.0" sampleFS (runMain ["1.1.0"] sampleFS)
    (bumpedManifest "1.1.0") sampleFeed "addon@example.com"
    [Json.obj [("version", Json.str "1.0.0"), ("update_link", Json.str "...")]]
    rfl rfl rfl rfl rfl rfl

/-- C10: the non-empty-string constraint on the version is not enforced:
a usage error occurs exactly when no argument is supplied, and with the
empty string as the single argument the run proceeds, writes `version`
equal to the empty string into the manifest, and prepends a record with
the empty version to the feed. -/
theorem C10_empty_version_accepted (fs : FS) (m m1 u u1 : Json) (s : String)
    (hm : fs.manifest = some m)
    (hset : m.setKey "version" (Json.str "") = some m1)
    (hid : geckoId m1 = some (Json.str s))
    (hu : fs.updates = some u)
    (hp : feedPrepend u s (updateRecord "") = some u1) :
    (∀ (args : List String) (g : FS),
        (runMain args g).result = RunResult.usageError ↔ args = []) ∧
    (runMain [""] fs).result = RunResult.success ∧
    (runMain [""] fs).fs.manifest = some m1 ∧
    m1.getKey "version" = some (Json.str "") ∧
    (runMain [""] fs).fs.updates = some u1 ∧
    ∃ l, feedUpdates u s = some (Json.arr l) ∧
      feedUpdates u1 s = some (Json.arr (updateRecord "" :: l)) := by
  have hrun := runMain_success_form "" [] fs hm hset hid hu hp
  refine ⟨?_, ?_, ?_, getKey_setKey_self hset, ?_, feedPrepend_inv hp⟩
  · intro args g
    constructor
    · intro hres
      cases args with
      | nil => rfl
      | cons a r => exact absurd hres (runMain_cons_result_ne_usage a r g)
    · rintro rfl
      rfl
  · rw [hrun]
  · rw [hrun]
  · rw [hrun]

/-- C10 at a concrete state, with the empty string as the argument. -/
theorem C10_empty_version_accepted_witness :
    (∀ (args : List String) (g : FS),
        (runMain args g).result = RunResult.usageError ↔ args = []) ∧
    (runMain [""] sampleFS).result = RunResult.success ∧
    (runMain [""] sampleFS).fs.manifest = some (bumpedManifest "") ∧
    (bumpedManifest "").getKey "version" = some (Json.str "") ∧
    (runMain [""] sampleFS).fs.updates = some (bumpedFeed "") ∧
    ∃ l, feedUpdates sampleFeed "addon@example.com" = some (Json.arr l) ∧
      feedUpdates (bumpedFeed "") "addon@example.com" =
        some (Json.arr (updateRecord "" :: l)) :=
  C10_empty_version_accepted sampleFS sampleManifest (bumpedManifest "")
    sampleFeed (bumpedFeed "") "addon@example.com" rfl rfl rfl rfl rfl
